import Mathlib

/-!
Shallow embedding of `src/app.py` (an Upbit price-alert service). The parts
modelled are the ones the verified properties talk about: the per-tracker
alert classification and edge-triggered notification logic of `poller`
(app.py lines 161-213), the chunked quote fetch `fetch_tickers`
(lines 130-145), the rate-limit-aware `send_discord_message`
(lines 147-159), and the market-identifier canonicalizer `normalize_market`
(lines 59-66).

Modelling choices: Python floats are embedded as rationals; the SQLite
`last_alert` table is an association list keyed by `(market, channel_id)`;
HTTP traffic is an explicit response environment (one scripted response per
request, in request order); a notification send either succeeds or raises,
given by a boolean oracle per tracker; Python strings (for
`normalize_market`) are lists of natural-number code points, with `strip`
and `upper` modelled on their ASCII behaviour.
-/

namespace Notix

/-- Classification result, the string `st` computed in `poller`
(app.py line 184). -/
inductive AlertState
  | above
  | below
  | neutral
deriving DecidableEq, Repr

/-- One row of the `trackers` table (app.py lines 27-35), in the column order
of the `SELECT market, avg_price, up_threshold, down_threshold, channel_id`
read by `poller` (line 168). -/
structure Tracker where
  market : String
  avg_price : ℚ
  up_threshold : ℚ
  down_threshold : ℚ
  channel_id : String
deriving DecidableEq, Repr

/-- The `last_alert` table (app.py lines 36-42): rows keyed by
`(market, channel_id)`, holding `(last_state, last_ts)`. -/
abbrev Store := List ((String × String) × (AlertState × Int))

/-- The `SELECT last_state FROM last_alert WHERE market=? AND channel_id=?`
lookup (app.py line 186), as a keyed search; the primary key makes the row
unique. -/
def lookupSt : Store → String × String → Option (AlertState × Int)
  | [], _ => none
  | (k, v) :: rest, key => if k = key then some v else lookupSt rest key

/-- The `INSERT INTO last_alert ... ON CONFLICT(market, channel_id) DO UPDATE`
upsert (app.py lines 202-206): replace the row in place if the key exists,
otherwise add it. -/
def upsertSt : Store → String × String → AlertState × Int → Store
  | [], key, v => [(key, v)]
  | (k, w) :: rest, key, v =>
    if k = key then (key, v) :: rest else (k, w) :: upsertSt rest key v

/-- The percentage deviation `pct = (price-float(avg))/float(avg)*100.0`
(app.py line 183). -/
def pctOf (price avg : ℚ) : ℚ := (price - avg) / avg * 100

/-- The classification
`st = "above" if pct>=up_th else "below" if pct<=down_th else "neutral"`
(app.py line 184). -/
def classify (pct up_th down_th : ℚ) : AlertState :=
  if up_th ≤ pct then .above else if pct ≤ down_th then .below else .neutral

/-- The firing decision (app.py lines 189-192): `should` becomes true exactly
when `st in ("above","below")` and (`prev is None or prev[0]!=st`). -/
def shouldFire (st : AlertState) (prev : Option AlertState) : Bool :=
  (decide (st = .above) || decide (st = .below)) &&
    (decide (prev = none) || decide (prev ≠ some st))

/-- Everything the loop body of `poller` does for one tracker row
(app.py lines 178-209): the resulting `last_alert` table, whether a send was
attempted (`sent`), whether it was confirmed delivered (`delivered`), and the
`pct`/`st` values computed (none when the row was skipped by the guards). -/
structure StepOut where
  store : Store
  sent : Bool
  delivered : Bool
  pct : Option ℚ
  st : Option AlertState
deriving DecidableEq, Repr

/-- One iteration of the per-tracker loop in `poller` (app.py lines 178-209).
`quotes market` is `tick.get(market)` collapsed to the price the code
extracts (`float(info.get("trade_price") or 0.0)`), `none` when the market is
absent from the fetched dict. `sendOk` says whether `send_discord_message`
returns normally (`true`) or raises (`false`); on a raise the `except` at
lines 208-209 swallows the error before the state write, so the table is
untouched. -/
def procTracker (quotes : String → Option ℚ) (sendOk : Bool) (now : Int)
    (store : Store) (t : Tracker) : StepOut :=
  match quotes t.market with
  | none => ⟨store, false, false, none, none⟩
  | some price =>
    if price ≤ 0 ∨ t.avg_price ≤ 0 then ⟨store, false, false, none, none⟩
    else
      let pct := pctOf price t.avg_price
      let st := classify pct t.up_threshold t.down_threshold
      let prev := (lookupSt store (t.market, t.channel_id)).map Prod.fst
      if shouldFire st prev then
        if sendOk then
          ⟨upsertSt store (t.market, t.channel_id) (st, now), true, true,
            some pct, some st⟩
        else ⟨store, true, false, some pct, some st⟩
      else ⟨store, false, false, some pct, some st⟩

/-- The whole per-tracker loop of one tick (app.py lines 178-209), threading
the `last_alert` table through the rows in order and recording, per row,
whether a notification send was attempted. `sendOk` is keyed by the
`(market, channel_id)` of the row being processed. -/
def runTick (quotes : String → Option ℚ) (sendOk : String × String → Bool)
    (now : Int) : Store → List Tracker → Store × List Bool
  | store, [] => (store, [])
  | store, t :: rest =>
    let o := procTracker quotes (sendOk (t.market, t.channel_id)) now store t
    let r := runTick quotes sendOk now o.store rest
    (r.1, o.sent :: r.2)

/-- Parsed ticker entries: each response item collapsed to
`(item["market"], trade_price-or-0)`. -/
abbrev Entries := List (String × ℚ)

/-- The HTTP environment for the ticker endpoint: the scripted outcome of the
n-th GET issued during one call, `.error` standing for a raised exception
(network error or `raise_for_status` on a non-2xx status). -/
abbrev RespEnv := ℕ → Except Unit Entries

/-- Number of loop iterations of `for i in range(0, len(markets), CHUNK)` with
`CHUNK = 30` (app.py lines 135-136). -/
def numChunks (n : ℕ) : ℕ := (n + 29) / 30

/-- The chunk loop of `fetch_tickers` (app.py lines 136-144): `k` requests
starting at request index `i`, issued sequentially; the first raised
exception propagates and aborts the whole call. The accumulated dict is the
concatenation of the parsed chunk responses (later entries shadow earlier
ones, see `dictGet`). -/
def fetchChunks (resp : RespEnv) : ℕ → ℕ → Except Unit Entries
  | _, 0 => .ok []
  | i, k + 1 =>
    match resp i with
    | .error e => .error e
    | .ok d =>
      match fetchChunks resp (i + 1) k with
      | .error e => .error e
      | .ok rest => .ok (d ++ rest)

/-- `fetch_tickers` (app.py lines 130-145): chunks the market list by 30 and
issues one GET per chunk with no retry; an empty market list returns the
empty dict without any request. -/
def fetch_tickers (resp : RespEnv) (markets : List String) :
    Except Unit Entries :=
  fetchChunks resp 0 (numChunks markets.length)

/-- Python dict lookup over accumulated entries: the latest binding of a key
wins, mirroring `out[m] = item` overwriting. -/
def dictGet (l : Entries) (m : String) : Option ℚ :=
  l.foldl (fun acc kv => if kv.1 = m then some kv.2 else acc) none

/-- Insertion into a sorted list of market strings. -/
def insSorted (x : String) : List String → List String
  | [] => [x]
  | y :: ys => if x ≤ y then x :: y :: ys else y :: insSorted x ys

/-- `sorted(...)` over market strings (app.py line 173). -/
def sortMarkets (l : List String) : List String := l.foldr insSorted []

/-- `markets = sorted({r[0] for r in rows})` (app.py line 173): the distinct
markets of the loaded tracker rows, sorted. -/
def marketsOf (rows : List Tracker) : List String :=
  sortMarkets ((rows.map (fun t => t.market)).dedup)

/-- One pass of the `while True` body of `poller` (app.py lines 166-213)
after the rows have been read: an empty row set sleeps without fetching
(lines 170-171); a fetch that raises is caught by the outer `except`
(lines 211-213), which skips the whole tick leaving the table untouched and
sending nothing; otherwise every row is evaluated against the fetched
quotes. -/
def pollOnce (resp : RespEnv) (sendOk : String × String → Bool) (now : Int)
    (store : Store) (rows : List Tracker) : Store × List Bool :=
  if rows = [] then (store, [])
  else
    match fetch_tickers resp (marketsOf rows) with
    | .error _ => (store, [])
    | .ok entries => runTick (dictGet entries) sendOk now store rows

/-- Modelled from the spec: the retry policy the spec ascribes to the quote
fetch — "Retries the whole fetch sequence up to a small fixed bound (e.g., 3
attempts) with a short fixed backoff on transient failure" (§4.2). The source
`fetch_tickers` has no such retry; this definition exists only to compare
the claimed behaviour with the source behaviour. The request counter keeps
consuming the same scripted environment across attempts. -/
def chunksCounting (resp : RespEnv) : ℕ → ℕ → Except Unit Entries × ℕ
  | i, 0 => (.ok [], i)
  | i, k + 1 =>
    match resp i with
    | .error e => (.error e, i + 1)
    | .ok d =>
      match chunksCounting resp (i + 1) k with
      | (.error e, c) => (.error e, c)
      | (.ok rest, c) => (.ok (d ++ rest), c)

/-- Modelled from the spec: "Retries the whole fetch sequence up to a small
fixed bound (e.g., 3 attempts)" (§4.2) — three attempts at the whole chunk
sequence, each attempt consuming fresh responses from the environment; the
(timing-only) backoff between attempts is not represented. Absent from the
source `fetch_tickers`. -/
def fetchTickersSpecRetry (resp : RespEnv) (markets : List String) :
    Except Unit Entries :=
  let n := numChunks markets.length
  match chunksCounting resp 0 n with
  | (.ok d, _) => .ok d
  | (.error _, c1) =>
    match chunksCounting resp c1 n with
    | (.ok d, _) => .ok d
    | (.error _, c2) => (chunksCounting resp c2 n).1

/-- One scripted Discord response: its HTTP status and, for 429 responses,
the `retry_after` field of its JSON body (the code defaults a missing field
to `1.0`, which the script bakes in). -/
structure DiscordResp where
  status : ℕ
  retry_after : ℚ
deriving DecidableEq, Repr

/-- Outcome of `send_discord_message`: returned normally (`delivered`),
raised via `raise_for_status` (`raised`), or consumed the whole script while
still looping on 429s (`pending`). -/
inductive SendOutcome
  | delivered
  | raised (status : ℕ)
  | pending
deriving DecidableEq, Repr

/-- `send_discord_message` (app.py lines 147-159) run against a scripted
response sequence: the `while True` loop posts `payload`, sleeps
`retry_after + 0.1` and retries on a 429, returns on a 2xx, and raises on
any other status. Results: outcome, total time slept, and the payload of
every POST in order. -/
def send_discord_message (payload : String) :
    List DiscordResp → SendOutcome × ℚ × List String
  | [] => (.pending, 0, [])
  | r :: rest =>
    if r.status = 429 then
      let o := send_discord_message payload rest
      (o.1, r.retry_after + 1 / 10 + o.2.1, payload :: o.2.2)
    else if 200 ≤ r.status ∧ r.status < 300 then (.delivered, 0, [payload])
    else (.raised r.status, 0, [payload])

/-- ASCII whitespace for the `str.strip()` model (space, tab, LF, CR, VT,
FF); `normalize_market` strings are lists of code points. -/
def isSpaceCP (n : ℕ) : Bool :=
  n = 32 || n = 9 || n = 10 || n = 13 || n = 11 || n = 12

/-- ASCII model of `str.upper()`: lowercase letters (97-122) map down by 32,
everything else is fixed. -/
def toUpperCP (n : ℕ) : ℕ := if 97 ≤ n ∧ n ≤ 122 then n - 32 else n

/-- Code point in `A`-`Z` (65-90). -/
def isUpperCP (n : ℕ) : Bool := decide (65 ≤ n) && decide (n ≤ 90)

/-- Code point in `0`-`9` (48-57). -/
def isDigitCP (n : ℕ) : Bool := decide (48 ≤ n) && decide (n ≤ 57)

/-- Code point matching the regex class `[A-Z0-9]`. -/
def isUpAlnumCP (n : ℕ) : Bool := isUpperCP n || isDigitCP n

/-- ASCII alphanumeric of any case: `[A-Za-z0-9]`. -/
def isAlnumCP (n : ℕ) : Bool :=
  isUpperCP n || isDigitCP n || (decide (97 ≤ n) && decide (n ≤ 122))

/-- `s.strip()` on code points: drop ASCII whitespace from both ends. -/
def pyStrip (l : List ℕ) : List ℕ :=
  ((l.dropWhile isSpaceCP).reverse.dropWhile isSpaceCP).reverse

/-- `re.fullmatch(r"[A-Z0-9]{2,10}", s)` (app.py line 62). -/
def matchBareSymbol (l : List ℕ) : Bool :=
  decide (2 ≤ l.length) && decide (l.length ≤ 10) && l.all isUpAlnumCP

/-- `re.fullmatch(r"[A-Z]{3,5}-[A-Z0-9]{2,15}", s)` (app.py line 64): some
split position `i` (forced to 3-5 by the quantifier) carries the dash
(code point 45), with an all-uppercase prefix of length `i` and an
alphanumeric-uppercase suffix of length 2-15. -/
def matchMarketForm (l : List ℕ) : Bool :=
  (List.range 6).any fun i =>
    decide (3 ≤ i) && decide (l.get? i = some 45) &&
      (l.take i).all isUpperCP &&
      decide (2 ≤ l.length - (i + 1)) && decide (l.length - (i + 1) ≤ 15) &&
      (l.drop (i + 1)).all isUpAlnumCP

/-- The code points of `"KRW-"`. -/
def krwDash : List ℕ := [75, 82, 87, 45]

/-- `normalize_market` (app.py lines 59-66) on code points: empty input is
rejected; otherwise the input is stripped and uppercased, a bare symbol gets
the `KRW-` prefix, an already well-formed market passes through, anything
else is rejected. -/
def normalize_market (l : List ℕ) : Option (List ℕ) :=
  if l = [] then none
  else
    let s := (pyStrip l).map toUpperCP
    if matchBareSymbol s then some (krwDash ++ s)
    else if matchMarketForm s then some s
    else none

/-- Fixture: the tracker of the spec's worked example (§8) —
`reference_price=100, up_threshold=5, down_threshold=-5`. -/
def t0 : Tracker := ⟨"KRW-BTC", 100, 5, -5, "123"⟩

/-- Fixture: a quote map giving `KRW-BTC` the price `p` and nothing else. -/
def qAt (p : ℚ) : String → Option ℚ :=
  fun m => if m = "KRW-BTC" then some p else none

/-- Fixture: every notification send succeeds. -/
def okAll : String × String → Bool := fun _ => true

/-- Fixture for the retry counterexample: the first request raises, every
later request succeeds (a transient failure). -/
def respTransient : RespEnv :=
  fun n => if n = 0 then .error () else .ok [("KRW-BTC", 50)]

/-- Fixture for the partial-success counterexample: the first request
succeeds, every later request raises. -/
def respFirstOnly : RespEnv :=
  fun n => if n = 0 then .ok [("KRW-BTC", 50)] else .error ()

/-- Fixture: 31 markets, so `fetch_tickers` issues two chunked requests. -/
def mkts31 : List String := List.replicate 31 "KRW-BTC"

end Notix

namespace Notix

/-! ## Basic facts about the firing decision and classification -/

theorem shouldFire_iff (st : AlertState) (prev : Option AlertState) :
    shouldFire st prev = true ↔
      (st = .above ∨ st = .below) ∧ (prev = none ∨ prev ≠ some st) := by
  simp [shouldFire]

theorem shouldFire_self (st : AlertState) : shouldFire st (some st) = false := by
  simp [shouldFire]

theorem shouldFire_ne_neutral (st : AlertState) (prev : Option AlertState)
    (h : shouldFire st prev = true) : st ≠ .neutral := by
  rcases (shouldFire_iff st prev).mp h with ⟨h1 | h1, _⟩ <;> rw [h1] <;> simp

theorem classify_above_iff (p u d : ℚ) : classify p u d = .above ↔ u ≤ p := by
  unfold classify
  split_ifs with h1 h2 <;> simp [*]

theorem classify_below_iff (p u d : ℚ) :
    classify p u d = .below ↔ p < u ∧ p ≤ d := by
  unfold classify
  split_ifs with h1 h2 <;> simp [*] <;> simp [not_le.mp h1]

theorem classify_neutral_iff (p u d : ℚ) :
    classify p u d = .neutral ↔ d < p ∧ p < u := by
  unfold classify
  split_ifs with h1 h2
  · constructor
    · intro h
      exact absurd h (by simp)
    · rintro ⟨h3, h4⟩
      linarith
  · constructor
    · intro h
      exact absurd h (by simp)
    · rintro ⟨h3, h4⟩
      linarith
  · exact ⟨fun _ => ⟨not_le.mp h2, not_le.mp h1⟩, fun _ => rfl⟩

theorem guard_false {price : ℚ} {avg : ℚ} (hp : 0 < price) (ha : 0 < avg) :
    ¬(price ≤ 0 ∨ avg ≤ 0) := by
  push_neg
  exact ⟨hp, ha⟩

/-! ## Evaluation lemmas for the per-tracker loop body -/

theorem procTracker_eval (quotes : String → Option ℚ) (ok : Bool) (now : Int)
    (store : Store) (t : Tracker) (price : ℚ)
    (hq : quotes t.market = some price) (hp : 0 < price)
    (ha : 0 < t.avg_price) :
    procTracker quotes ok now store t =
      (if shouldFire (classify (pctOf price t.avg_price) t.up_threshold t.down_threshold)
          ((lookupSt store (t.market, t.channel_id)).map Prod.fst) then
        if ok then
          ⟨upsertSt store (t.market, t.channel_id)
            (classify (pctOf price t.avg_price) t.up_threshold t.down_threshold, now),
            true, true, some (pctOf price t.avg_price),
            some (classify (pctOf price t.avg_price) t.up_threshold t.down_threshold)⟩
        else ⟨store, true, false, some (pctOf price t.avg_price),
          some (classify (pctOf price t.avg_price) t.up_threshold t.down_threshold)⟩
      else ⟨store, false, false, some (pctOf price t.avg_price),
        some (classify (pctOf price t.avg_price) t.up_threshold t.down_threshold)⟩) := by
  unfold procTracker
  rw [hq]
  simp only [if_neg (guard_false hp ha)]

theorem procTracker_sent (quotes : String → Option ℚ) (ok : Bool) (now : Int)
    (store : Store) (t : Tracker) (price : ℚ)
    (hq : quotes t.market = some price) (hp : 0 < price)
    (ha : 0 < t.avg_price) :
    (procTracker quotes ok now store t).sent =
      shouldFire (classify (pctOf price t.avg_price) t.up_threshold t.down_threshold)
        ((lookupSt store (t.market, t.channel_id)).map Prod.fst) := by
  rw [procTracker_eval quotes ok now store t price hq hp ha]
  by_cases h : shouldFire (classify (pctOf price t.avg_price) t.up_threshold t.down_threshold)
      ((lookupSt store (t.market, t.channel_id)).map Prod.fst) = true
  · rw [if_pos h, h]
    cases ok <;> rfl
  · rw [if_neg h]
    simp at h
    rw [h]

theorem procTracker_store_fail (quotes : String → Option ℚ) (now : Int)
    (store : Store) (t : Tracker) :
    (procTracker quotes false now store t).store = store := by
  unfold procTracker
  cases quotes t.market with
  | none => rfl
  | some price =>
    by_cases h : price ≤ 0 ∨ t.avg_price ≤ 0
    · simp only [if_pos h]
    · simp only [if_neg h]
      split <;> rfl

theorem procTracker_store_delivered (quotes : String → Option ℚ) (now : Int)
    (store : Store) (t : Tracker) (price : ℚ)
    (hq : quotes t.market = some price) (hp : 0 < price)
    (ha : 0 < t.avg_price)
    (hs : (procTracker quotes true now store t).sent = true) :
    (procTracker quotes true now store t).store =
      upsertSt store (t.market, t.channel_id)
        (classify (pctOf price t.avg_price) t.up_threshold t.down_threshold, now) := by
  rw [procTracker_eval quotes true now store t price hq hp ha] at hs ⊢
  by_cases h : shouldFire (classify (pctOf price t.avg_price) t.up_threshold t.down_threshold)
      ((lookupSt store (t.market, t.channel_id)).map Prod.fst) = true
  · rw [if_pos h]
    rfl
  · rw [if_neg h] at hs
    simp at hs

theorem lookup_upsert (s : Store) (k : String × String) (v : AlertState × Int) :
    lookupSt (upsertSt s k v) k = some v := by
  induction s with
  | nil => simp [upsertSt, lookupSt]
  | cons kv rest ih =>
    by_cases h : kv.1 = k
    · simp [upsertSt, lookupSt, h]
    · simp [upsertSt, lookupSt, h, ih]

end Notix

namespace Notix

/-! ## The `last_alert` invariant machinery -/

theorem upsert_ne_neutral (s : Store) (k : String × String)
    (v : AlertState × Int) (hv : v.1 ≠ .neutral)
    (hs : ∀ kv ∈ s, kv.2.1 ≠ .neutral) :
    ∀ kv ∈ upsertSt s k v, kv.2.1 ≠ .neutral := by
  induction s with
  | nil =>
    intro kv hkv
    simp [upsertSt] at hkv
    rw [hkv]
    exact hv
  | cons hd rest ih =>
    obtain ⟨hk, hw⟩ := hd
    intro kv hkv
    simp only [upsertSt] at hkv
    by_cases h : hk = k
    · rw [if_pos h] at hkv
      rcases List.mem_cons.mp hkv with h1 | h1
      · rw [h1]
        exact hv
      · exact hs kv (List.mem_cons_of_mem _ h1)
    · rw [if_neg h] at hkv
      rcases List.mem_cons.mp hkv with h1 | h1
      · rw [h1]
        exact hs (hk, hw) (List.mem_cons_self _ _)
      · exact ih (fun kv2 hkv2 => hs kv2 (List.mem_cons_of_mem _ hkv2)) kv h1

theorem procTracker_preserve (quotes : String → Option ℚ) (ok : Bool)
    (now : Int) (store : Store) (t : Tracker)
    (hs : ∀ kv ∈ store, kv.2.1 ≠ .neutral) :
    ∀ kv ∈ (procTracker quotes ok now store t).store, kv.2.1 ≠ .neutral := by
  cases hqm : quotes t.market with
  | none =>
    simp only [procTracker, hqm]
    exact hs
  | some price =>
    simp only [procTracker, hqm]
    by_cases hg : price ≤ 0 ∨ t.avg_price ≤ 0
    · rw [if_pos hg]
      exact hs
    · rw [if_neg hg]
      by_cases hf : shouldFire
          (classify (pctOf price t.avg_price) t.up_threshold t.down_threshold)
          ((lookupSt store (t.market, t.channel_id)).map Prod.fst) = true
      · rw [if_pos hf]
        cases ok with
        | false => exact hs
        | true =>
          exact upsert_ne_neutral store (t.market, t.channel_id) _
            (shouldFire_ne_neutral _ _ hf) hs
      · rw [if_neg hf]
        exact hs

/-! ## Failure behaviour of the chunked quote fetch -/

theorem fetchChunks_error_head (resp : RespEnv) (i k : ℕ)
    (h : resp i = .error ()) (hk : 0 < k) :
    fetchChunks resp i k = .error () := by
  cases k with
  | zero => omega
  | succ k => simp [fetchChunks, h]

theorem fetchChunks_error_of_mem (resp : RespEnv) (k i : ℕ)
    (h : ∃ j, j < k ∧ resp (i + j) = .error ()) :
    fetchChunks resp i k = .error () := by
  induction k generalizing i with
  | zero =>
    obtain ⟨j, hj, _⟩ := h
    omega
  | succ k ih =>
    obtain ⟨j, hj, hr⟩ := h
    cases hri : resp i with
    | error e =>
      cases e
      exact fetchChunks_error_head resp i (k + 1) hri (Nat.succ_pos k)
    | ok d =>
      simp only [fetchChunks, hri]
      rw [ih (i + 1) ?_]
      obtain rfl | hjpos := Nat.eq_zero_or_pos j
      · rw [Nat.add_zero] at hr
        rw [hri] at hr
        exact absurd hr (by simp)
      · exact ⟨j - 1, by omega, by rw [show i + 1 + (j - 1) = i + j by omega]; exact hr⟩

theorem numChunks_pos {markets : List String} (h : markets ≠ []) :
    0 < numChunks markets.length := by
  have : 0 < markets.length := List.length_pos.mpr h
  unfold numChunks
  omega

theorem fetch_tickers_first_error (resp : RespEnv) (markets : List String)
    (hm : markets ≠ []) (h : resp 0 = .error ()) :
    fetch_tickers resp markets = .error () :=
  fetchChunks_error_head resp 0 _ h (numChunks_pos hm)

theorem pollOnce_skip (resp : RespEnv) (sendOk : String × String → Bool)
    (now : Int) (store : Store) (rows : List Tracker)
    (h : fetch_tickers resp (marketsOf rows) = .error ()) :
    pollOnce resp sendOk now store rows = (store, []) := by
  unfold pollOnce
  by_cases hr : rows = []
  · rw [if_pos hr]
  · rw [if_neg hr, h]

/-! ## The rate-limit loop -/

theorem send_wait_nonneg (payload : String) (resps : List DiscordResp)
    (h : ∀ x ∈ resps, 0 ≤ x.retry_after) :
    0 ≤ (send_discord_message payload resps).2.1 := by
  induction resps with
  | nil => simp [send_discord_message]
  | cons r rest ih =>
    simp only [send_discord_message]
    by_cases h429 : r.status = 429
    · rw [if_pos h429]
      have h1 : 0 ≤ r.retry_after := h r (List.mem_cons_self _ _)
      have h2 : 0 ≤ (send_discord_message payload rest).2.1 :=
        ih (fun x hx => h x (List.mem_cons_of_mem _ hx))
      dsimp only
      linarith
    · rw [if_neg h429]
      split <;> simp

end Notix

namespace Notix

/-! ## Character-level lemmas for `normalize_market` -/

theorem alnum_not_space (n : ℕ) (h : isAlnumCP n = true) : isSpaceCP n = false := by
  simp [isAlnumCP, isUpperCP, isDigitCP] at h
  simp [isSpaceCP]
  omega

theorem toUpper_alnum (n : ℕ) (h : isAlnumCP n = true) :
    isUpAlnumCP (toUpperCP n) = true := by
  simp [isAlnumCP, isUpperCP, isDigitCP] at h
  by_cases hl : 97 ≤ n ∧ n ≤ 122
  · simp [toUpperCP, hl, isUpAlnumCP, isUpperCP, isDigitCP]
    omega
  · simp [toUpperCP, hl, isUpAlnumCP, isUpperCP, isDigitCP]
    omega

theorem toUpper_fix (n : ℕ) (h : n ≤ 96) : toUpperCP n = n := by
  unfold toUpperCP
  rw [if_neg (by omega)]

theorem dropWhile_append_all {p : ℕ → Bool} {l1 l2 : List ℕ}
    (h : ∀ x ∈ l1, p x = true) :
    (l1 ++ l2).dropWhile p = l2.dropWhile p := by
  induction l1 with
  | nil => rfl
  | cons a as ih =>
    rw [List.cons_append, List.dropWhile_cons,
      if_pos (h a (List.mem_cons_self _ _)),
      ih (fun x hx => h x (List.mem_cons_of_mem _ hx))]

theorem dropWhile_all_false {p : ℕ → Bool} {l : List ℕ}
    (h : ∀ x ∈ l, p x = false) : l.dropWhile p = l := by
  cases l with
  | nil => rfl
  | cons a as =>
    rw [List.dropWhile_cons, if_neg (by simp [h a (List.mem_cons_self _ _)])]

theorem pyStrip_noop {l : List ℕ} (h : ∀ x ∈ l, isSpaceCP x = false) :
    pyStrip l = l := by
  unfold pyStrip
  rw [dropWhile_all_false h,
    dropWhile_all_false (fun x hx => h x (List.mem_reverse.mp hx)),
    List.reverse_reverse]

theorem pyStrip_sandwich {pre core post : List ℕ}
    (hpre : ∀ x ∈ pre, isSpaceCP x = true)
    (hpost : ∀ x ∈ post, isSpaceCP x = true)
    (hcore : ∀ x ∈ core, isSpaceCP x = false) (hne : core ≠ []) :
    pyStrip (pre ++ core ++ post) = core := by
  unfold pyStrip
  rw [List.append_assoc, dropWhile_append_all hpre]
  obtain ⟨c, cs, rfl⟩ := List.exists_cons_of_ne_nil hne
  rw [List.cons_append, List.dropWhile_cons,
    if_neg (by simp [hcore c (List.mem_cons_self _ _)]),
    ← List.cons_append, List.reverse_append,
    dropWhile_append_all (fun x hx => hpost x (List.mem_reverse.mp hx)),
    dropWhile_all_false (fun x hx => hcore x (List.mem_reverse.mp hx)),
    List.reverse_reverse]

theorem map_toUpper_fix {l : List ℕ} (h : ∀ x ∈ l, toUpperCP x = x) :
    l.map toUpperCP = l := by
  induction l with
  | nil => rfl
  | cons a as ih =>
    rw [List.map_cons, h a (List.mem_cons_self _ _),
      ih (fun x hx => h x (List.mem_cons_of_mem _ hx))]

theorem mkt_intro (base suffix : List ℕ)
    (hb1 : 3 ≤ base.length) (hb2 : base.length ≤ 5)
    (hball : base.all isUpperCP = true)
    (hs1 : 2 ≤ suffix.length) (hs2 : suffix.length ≤ 15)
    (hsall : suffix.all isUpAlnumCP = true) :
    matchMarketForm (base ++ 45 :: suffix) = true := by
  unfold matchMarketForm
  rw [List.any_eq_true]
  refine ⟨base.length, List.mem_range.mpr (by omega), ?_⟩
  have hget : (base ++ 45 :: suffix).get? base.length = some 45 := by
    rw [List.get?_append_right (le_refl _)]
    simp
  have htake : (base ++ 45 :: suffix).take base.length = base :=
    List.take_left'
      rfl
  have hdrop : (base ++ 45 :: suffix).drop (base.length + 1) = suffix := by
    rw [List.append_cons]
    exact List.drop_left' (by simp)
  simp [hget, htake, hdrop, hball, hsall, List.length_append, List.length_cons,
    List.getElem_append_right, Nat.sub_self, List.getElem_cons_zero]
  omega

theorem mkt_elim {l : List ℕ} (h : matchMarketForm l = true) :
    ∃ i, 3 ≤ i ∧ i ≤ 5 ∧ l.get? i = some 45 ∧
      (l.take i).all isUpperCP = true ∧ 2 ≤ l.length - (i + 1) ∧
      l.length - (i + 1) ≤ 15 ∧ (l.drop (i + 1)).all isUpAlnumCP = true := by
  unfold matchMarketForm at h
  rw [List.any_eq_true] at h
  obtain ⟨i, hmem, hcond⟩ := h
  rw [List.mem_range] at hmem
  simp only [Bool.and_eq_true, decide_eq_true_eq] at hcond
  obtain ⟨⟨⟨⟨⟨h3, hget⟩, htake⟩, h2⟩, h15⟩, hdrop⟩ := hcond
  exact ⟨i, h3, by omega, by simpa using hget, htake, h2, h15, hdrop⟩

theorem mkt_bounds {l : List ℕ} (h : matchMarketForm l = true) :
    ∀ x ∈ l, 45 ≤ x ∧ x ≤ 90 := by
  obtain ⟨i, h3, h5, hget, htake, hs2, hs15, hdrop⟩ := mkt_elim h
  intro x hx
  have hilen : i < l.length := by
    by_contra hc
    push_neg at hc
    rw [List.get?_eq_none.mpr hc] at hget
    exact absurd hget (by simp)
  rw [← List.take_append_drop i l] at hx
  rcases List.mem_append.mp hx with hx1 | hx1
  · have := List.all_eq_true.mp htake x hx1
    simp [isUpperCP] at this
    omega
  · rw [List.drop_eq_getElem_cons hilen] at hx1
    have hgel : l[i] = 45 := by
      rw [List.get?_eq_get hilen] at hget
      simpa [List.get_eq_getElem] using hget
    rcases List.mem_cons.mp hx1 with hx2 | hx2
    · rw [hx2, hgel]
      omega
    · have := List.all_eq_true.mp hdrop x hx2
      simp [isUpAlnumCP, isUpperCP, isDigitCP] at this
      omega

theorem normalize_some_mkt {l r : List ℕ} (h : normalize_market l = some r) :
    matchMarketForm r = true := by
  unfold normalize_market at h
  by_cases hl : l = []
  · rw [if_pos hl] at h
    exact absurd h (by simp)
  · rw [if_neg hl] at h
    simp only at h
    by_cases hb : matchBareSymbol ((pyStrip l).map toUpperCP) = true
    · rw [if_pos hb, Option.some.injEq] at h
      subst h
      have hbs := hb
      unfold matchBareSymbol at hbs
      simp only [Bool.and_eq_true, decide_eq_true_eq] at hbs
      obtain ⟨⟨h2, h10⟩, hall⟩ := hbs
      exact mkt_intro [75, 82, 87] ((pyStrip l).map toUpperCP)
        (by simp) (by simp) (by decide) h2 (by omega) hall
    · rw [if_neg hb] at h
      by_cases hm : matchMarketForm ((pyStrip l).map toUpperCP) = true
      · rw [if_pos hm, Option.some.injEq] at h
        subst h
        exact hm
      · rw [if_neg hm] at h
        exact absurd h (by simp)

theorem mkt_fixed {r : List ℕ} (h : matchMarketForm r = true) :
    normalize_market r = some r := by
  have hb := mkt_bounds h
  have hne : r ≠ [] := by
    obtain ⟨i, h3, _, hget, _⟩ := mkt_elim h
    intro hcon
    subst hcon
    exact absurd hget (by simp)
  have hstrip : pyStrip r = r :=
    pyStrip_noop (fun x hx => by
      have := hb x hx
      simp [isSpaceCP]
      omega)
  have hmap : r.map toUpperCP = r :=
    map_toUpper_fix (fun x hx => toUpper_fix x (by have := hb x hx; omega))
  have hbare : matchBareSymbol r = false := by
    obtain ⟨i, _, _, hget, _⟩ := mkt_elim h
    have h45 : (45 : ℕ) ∈ r := List.get?_mem hget
    rw [← Bool.not_eq_true]
    intro hc
    have := List.all_eq_true.mp (by
      unfold matchBareSymbol at hc
      simp only [Bool.and_eq_true] at hc
      exact hc.2) 45 h45
    exact absurd this (by decide)
  unfold normalize_market
  rw [if_neg hne]
  simp [hstrip, hmap, hbare, h]

theorem normalize_bare {pre core post : List ℕ}
    (hpre : ∀ x ∈ pre, isSpaceCP x = true)
    (hpost : ∀ x ∈ post, isSpaceCP x = true)
    (hcore : ∀ x ∈ core, isAlnumCP x = true)
    (h2 : 2 ≤ core.length) (h10 : core.length ≤ 10) :
    normalize_market (pre ++ core ++ post) =
      some (krwDash ++ core.map toUpperCP) := by
  have hne_core : core ≠ [] := by
    intro hc
    rw [hc] at h2
    simp at h2
  have hne : pre ++ core ++ post ≠ [] := by
    simp [hne_core]
  have hstrip := pyStrip_sandwich hpre hpost
    (fun x hx => alnum_not_space x (hcore x hx)) hne_core
  have hbare : matchBareSymbol (core.map toUpperCP) = true := by
    unfold matchBareSymbol
    simp only [Bool.and_eq_true, decide_eq_true_eq, List.length_map]
    refine ⟨⟨h2, h10⟩, ?_⟩
    rw [List.all_map]
    exact List.all_eq_true.mpr (fun x hx => toUpper_alnum x (hcore x hx))
  rw [List.append_assoc] at hstrip
  unfold normalize_market
  rw [if_neg hne]
  simp [hstrip, hbare]

end Notix

namespace Notix

/-! ## Concrete evaluation of the worked example of spec section 8 -/

theorem trace_tick1 : runTick (qAt 100) okAll 1 [] [t0] = ([], [false]) := by
  simp [runTick, procTracker, qAt, okAll, t0, pctOf, classify, shouldFire,
    lookupSt, upsertSt] <;> norm_num <;> simp

theorem trace_tick2 :
    runTick (qAt 106) okAll 2 [] [t0] =
      ([(("KRW-BTC", "123"), (.above, 2))], [true]) := by
  simp [runTick, procTracker, qAt, okAll, t0, pctOf, classify, shouldFire,
    lookupSt, upsertSt] <;> norm_num <;> simp

theorem trace_tick3 :
    runTick (qAt 104) okAll 3 [(("KRW-BTC", "123"), (.above, 2))] [t0] =
      ([(("KRW-BTC", "123"), (.above, 2))], [false]) := by
  simp [runTick, procTracker, qAt, okAll, t0, pctOf, classify, shouldFire,
    lookupSt, upsertSt] <;> norm_num <;> simp

theorem trace_tick4 :
    runTick (qAt 94) okAll 4 [(("KRW-BTC", "123"), (.above, 2))] [t0] =
      ([(("KRW-BTC", "123"), (.below, 4))], [true]) := by
  simp [runTick, procTracker, qAt, okAll, t0, pctOf, classify, shouldFire,
    lookupSt, upsertSt] <;> norm_num <;> simp

end Notix

namespace Notix

/-! ## Claim theorems -/

/-- C1: For every tracker evaluated in a tick (quote present, price and
reference positive), a notification send is attempted if and only if the
computed state is above or below AND either no prior `last_alert` row exists
for its key or the stored `last_state` differs from the new state; and once a
send has succeeded, a subsequent tick whose quote classifies to the same
(non-neutral) state attempts no further send. -/
theorem poller_fires_iff_edge (quotes : String → Option ℚ) (ok : Bool)
    (now : Int) (store : Store) (t : Tracker) (price : ℚ)
    (hq : quotes t.market = some price) (hp : 0 < price)
    (ha : 0 < t.avg_price) :
    ((procTracker quotes ok now store t).sent = true ↔
      (classify (pctOf price t.avg_price) t.up_threshold t.down_threshold = .above ∨
        classify (pctOf price t.avg_price) t.up_threshold t.down_threshold = .below) ∧
      ((lookupSt store (t.market, t.channel_id)).map Prod.fst = none ∨
        (lookupSt store (t.market, t.channel_id)).map Prod.fst ≠
          some (classify (pctOf price t.avg_price) t.up_threshold t.down_threshold))) ∧
    (∀ (quotes2 : String → Option ℚ) (price2 : ℚ) (ok2 : Bool),
      quotes2 t.market = some price2 → 0 < price2 →
      classify (pctOf price2 t.avg_price) t.up_threshold t.down_threshold =
        classify (pctOf price t.avg_price) t.up_threshold t.down_threshold →
      ok = true → (procTracker quotes ok now store t).sent = true →
      (procTracker quotes2 ok2 now (procTracker quotes ok now store t).store t).sent
        = false) := by
  constructor
  · rw [procTracker_sent quotes ok now store t price hq hp ha, shouldFire_iff]
  · intro quotes2 price2 ok2 hq2 hp2 hcl hok hs
    subst hok
    rw [procTracker_sent quotes2 ok2 now _ t price2 hq2 hp2 ha, hcl,
      procTracker_store_delivered quotes now store t price hq hp ha hs,
      lookup_upsert]
    simp [shouldFire_self]

/-- Witness for C1 at a concrete firing input: price 106 against reference
100 with no prior row attempts a send. -/
theorem poller_fires_iff_edge_witness :
    (procTracker (qAt 106) true 0 [] t0).sent = true := by
  have h := poller_fires_iff_edge (qAt 106) true 0 [] t0 106 rfl
    (by norm_num) (by norm_num [t0])
  refine h.1.mpr ⟨Or.inl ?_, Or.inl rfl⟩
  norm_num [t0, classify, pctOf]

/-- C2: For a firing tracker, the `last_alert` row is written exactly when
the send returns success: a failed send leaves the table untouched (and the
same edge fires again when re-evaluated against the same quotes), while a
successful send upserts the new state. -/
theorem state_write_requires_delivery (quotes : String → Option ℚ) (now : Int)
    (store : Store) (t : Tracker) (price : ℚ) (ok2 : Bool)
    (hq : quotes t.market = some price) (hp : 0 < price) (ha : 0 < t.avg_price)
    (hfire : shouldFire (classify (pctOf price t.avg_price) t.up_threshold t.down_threshold)
      ((lookupSt store (t.market, t.channel_id)).map Prod.fst) = true) :
    procTracker quotes false now store t =
      ⟨store, true, false, some (pctOf price t.avg_price),
        some (classify (pctOf price t.avg_price) t.up_threshold t.down_threshold)⟩ ∧
    procTracker quotes true now store t =
      ⟨upsertSt store (t.market, t.channel_id)
          (classify (pctOf price t.avg_price) t.up_threshold t.down_threshold, now),
        true, true, some (pctOf price t.avg_price),
        some (classify (pctOf price t.avg_price) t.up_threshold t.down_threshold)⟩ ∧
    (procTracker quotes ok2 now (procTracker quotes false now store t).store t).sent
      = true := by
  refine ⟨?_, ?_, ?_⟩
  · rw [procTracker_eval quotes false now store t price hq hp ha, if_pos hfire]
    rfl
  · rw [procTracker_eval quotes true now store t price hq hp ha, if_pos hfire]
    rfl
  · rw [procTracker_store_fail quotes now store t,
      procTracker_sent quotes ok2 now store t price hq hp ha]
    exact hfire

/-- Witness for C2 at a concrete firing input: after a failed send at price
110 the table is still empty. -/
theorem state_write_requires_delivery_witness :
    (procTracker (qAt 110) false 0 [] t0).store = [] := by
  have h := state_write_requires_delivery (qAt 110) 0 [] t0 110 true rfl
    (by norm_num) (by norm_num [t0]) ?_
  · rw [h.1]
  · have hc : classify (pctOf 110 t0.avg_price) t0.up_threshold t0.down_threshold
        = .above := by
      norm_num [t0, classify, pctOf]
    rw [hc]
    rfl

/-- C3 counterexample: on the third quote of the spec's worked example the
code classifies 104 against reference 100 (pct = 4, up threshold 5) as
neutral, not above as the claimed classification list states. -/
theorem example_trace_cex :
    classify (pctOf 104 100) 5 (-5) = .neutral ∧
      classify (pctOf 104 100) 5 (-5) ≠ .above := by
  have h : classify (pctOf 104 100) 5 (-5) = .neutral := by
    norm_num [classify, pctOf]
  refine ⟨h, ?_⟩
  rw [h]
  simp

/-- C3 (amended): with reference 100 and thresholds 5 / -5, the quote
sequence [100, 106, 104, 94] classifies as [neutral, above, neutral, below],
attempts sends exactly on the second and fourth ticks, and leaves
`last_state = below`. -/
theorem example_trace_run :
    classify (pctOf 100 100) 5 (-5) = .neutral ∧
    classify (pctOf 106 100) 5 (-5) = .above ∧
    classify (pctOf 104 100) 5 (-5) = .neutral ∧
    classify (pctOf 94 100) 5 (-5) = .below ∧
    (runTick (qAt 100) okAll 1 [] [t0]).2 = [false] ∧
    (runTick (qAt 106) okAll 2 (runTick (qAt 100) okAll 1 [] [t0]).1 [t0]).2 =
      [true] ∧
    (runTick (qAt 104) okAll 3
      (runTick (qAt 106) okAll 2
        (runTick (qAt 100) okAll 1 [] [t0]).1 [t0]).1 [t0]).2 = [false] ∧
    (runTick (qAt 94) okAll 4
      (runTick (qAt 104) okAll 3
        (runTick (qAt 106) okAll 2
          (runTick (qAt 100) okAll 1 [] [t0]).1 [t0]).1 [t0]).1 [t0]).2 =
      [true] ∧
    lookupSt
      (runTick (qAt 94) okAll 4
        (runTick (qAt 104) okAll 3
          (runTick (qAt 106) okAll 2
            (runTick (qAt 100) okAll 1 [] [t0]).1 [t0]).1 [t0]).1 [t0]).1
      ("KRW-BTC", "123") = some (.below, 4) := by
  refine ⟨by norm_num [classify, pctOf], by norm_num [classify, pctOf],
    by norm_num [classify, pctOf], by norm_num [classify, pctOf],
    ?_, ?_, ?_, ?_, ?_⟩
  · rw [trace_tick1]
  · rw [trace_tick1, trace_tick2]
  · rw [trace_tick1, trace_tick2, trace_tick3]
  · rw [trace_tick1, trace_tick2, trace_tick3, trace_tick4]
  · rw [trace_tick1, trace_tick2, trace_tick3, trace_tick4]
    simp [lookupSt]

/-- C4: For an evaluated tracker the recorded pct is exactly
`(price - reference) / reference * 100`, the recorded state is its
classification, and the classification is above iff `pct >= up_threshold`,
below iff not above and `pct <= down_threshold`, neutral otherwise. -/
theorem pct_and_classification (quotes : String → Option ℚ) (ok : Bool)
    (now : Int) (store : Store) (t : Tracker) (price : ℚ)
    (hq : quotes t.market = some price) (hp : 0 < price)
    (ha : 0 < t.avg_price) :
    (procTracker quotes ok now store t).pct =
      some ((price - t.avg_price) / t.avg_price * 100) ∧
    (procTracker quotes ok now store t).st =
      some (classify (pctOf price t.avg_price) t.up_threshold t.down_threshold) ∧
    (∀ p u d : ℚ, (classify p u d = .above ↔ u ≤ p) ∧
      (classify p u d = .below ↔ p < u ∧ p ≤ d) ∧
      (classify p u d = .neutral ↔ d < p ∧ p < u)) := by
  rw [procTracker_eval quotes ok now store t price hq hp ha]
  refine ⟨?_, ?_, ?_⟩
  · split
    · split <;> rfl
    · rfl
  · split
    · split <;> rfl
    · rfl
  · intro p u d
    exact ⟨classify_above_iff p u d, classify_below_iff p u d,
      classify_neutral_iff p u d⟩

/-- Witness for C4 at a concrete input: price 110 against reference 100
records pct 10. -/
theorem pct_and_classification_witness :
    (procTracker (qAt 110) true 0 [] t0).pct = some 10 := by
  have h := pct_and_classification (qAt 110) true 0 [] t0 110 rfl
    (by norm_num) (by norm_num [t0])
  rw [h.1]
  norm_num [t0]

end Notix

namespace Notix

/-- C5: Every `last_alert` write performed by the tick loop stores above or
below, never neutral: if no stored row is neutral before a tick, none is
after it (in particular, starting from an empty table the stored state is
always the last non-neutral classification that was notified). -/
theorem store_never_neutral (quotes : String → Option ℚ)
    (sendOk : String × String → Bool) (now : Int) (store : Store)
    (rows : List Tracker) (hs : ∀ kv ∈ store, kv.2.1 ≠ .neutral) :
    ∀ kv ∈ (runTick quotes sendOk now store rows).1, kv.2.1 ≠ .neutral := by
  induction rows generalizing store with
  | nil => exact hs
  | cons t rest ih =>
    exact ih _ (procTracker_preserve quotes _ now store t hs)

/-- Witness for C5: the row written by a firing tick at price 110 holds
above, which is not neutral. -/
theorem store_never_neutral_witness : AlertState.above ≠ AlertState.neutral := by
  refine store_never_neutral (qAt 110) okAll 0 [] [t0] (by simp)
    (("KRW-BTC", "123"), (.above, 0)) ?_
  have heval : (runTick (qAt 110) okAll 0 [] [t0]).1 =
      [(("KRW-BTC", "123"), (AlertState.above, 0))] := by
    simp [runTick, procTracker, qAt, okAll, t0, pctOf, classify, shouldFire,
      lookupSt, upsertSt] <;> norm_num <;> simp
  rw [heval]
  simp

/-- C6 counterexample: against an environment whose first request fails
transiently (all later requests succeed), the source `fetch_tickers` fails
outright, while the 3-attempt retrying fetch described by the spec would
succeed — so `fetch_tickers` has no retry. -/
theorem quote_fetch_no_retry_cex :
    fetch_tickers respTransient ["KRW-BTC"] = .error () ∧
    fetchTickersSpecRetry respTransient ["KRW-BTC"] = .ok [("KRW-BTC", 50)] :=
  ⟨rfl, rfl⟩

/-- C6 (amended): `fetch_tickers` makes a single attempt per chunk with no
retry and no backoff — a failure of the very first request immediately fails
the whole call — and a failed fetch makes the tick be skipped: the
`last_alert` table is untouched and no tracker is evaluated. (The 3-attempt
retry with fixed backoff exists only in `fetch_upbit_markets`, the
market-catalog fetch, not in the quote fetch.) -/
theorem quote_fetch_no_retry_tick_skipped :
    (∀ (resp : RespEnv) (markets : List String),
      markets ≠ [] → resp 0 = .error () →
        fetch_tickers resp markets = .error ()) ∧
    (∀ (resp : RespEnv) (sendOk : String × String → Bool) (now : Int)
        (store : Store) (rows : List Tracker),
      fetch_tickers resp (marketsOf rows) = .error () →
        pollOnce resp sendOk now store rows = (store, [])) :=
  ⟨fun resp markets hm h => fetch_tickers_first_error resp markets hm h,
    fun resp sendOk now store rows h => pollOnce_skip resp sendOk now store rows h⟩

/-- Witness for C6 at the transient-failure environment: the call fails and
the tick is skipped with the table unchanged. -/
theorem quote_fetch_no_retry_tick_skipped_witness :
    fetch_tickers respTransient ["KRW-BTC"] = .error () ∧
    pollOnce respTransient okAll 0 [] [t0] = ([], []) := by
  refine ⟨quote_fetch_no_retry_tick_skipped.1 respTransient ["KRW-BTC"]
    (by simp) rfl,
    quote_fetch_no_retry_tick_skipped.2 respTransient okAll 0 [] [t0] rfl⟩

/-- C7 counterexample: with 31 markets (two chunks) against an environment
where the first chunk succeeds and the second fails, the whole
`fetch_tickers` call raises instead of returning the union of the
successfully fetched entries. -/
theorem chunk_failure_cex :
    respFirstOnly 0 = .ok [("KRW-BTC", 50)] ∧
    mkts31.length = 31 ∧
    numChunks mkts31.length = 2 ∧
    fetch_tickers respFirstOnly mkts31 = .error () :=
  ⟨rfl, rfl, rfl, rfl⟩

/-- C7 (amended): when any chunk request of `fetch_tickers` fails, the
exception propagates and the whole call fails — no partial asset-to-quote
union is returned — and the caller then skips the entire tick for all
trackers, not just those whose assets were in the failed chunk. -/
theorem chunk_failure_aborts_whole_fetch :
    (∀ (resp : RespEnv) (markets : List String),
      (∃ i, i < numChunks markets.length ∧ resp i = .error ()) →
        fetch_tickers resp markets = .error ()) ∧
    (∀ (resp : RespEnv) (sendOk : String × String → Bool) (now : Int)
        (store : Store) (rows : List Tracker),
      fetch_tickers resp (marketsOf rows) = .error () →
        pollOnce resp sendOk now store rows = (store, [])) := by
  constructor
  · intro resp markets h
    obtain ⟨i, hi, hr⟩ := h
    exact fetchChunks_error_of_mem resp _ 0 ⟨i, hi, by simpa using hr⟩
  · intro resp sendOk now store rows h
    exact pollOnce_skip resp sendOk now store rows h

/-- Witness for C7 at the partial-failure environment: the two-chunk fetch
fails as a whole. -/
theorem chunk_failure_aborts_whole_fetch_witness :
    fetch_tickers respFirstOnly mkts31 = .error () :=
  chunk_failure_aborts_whole_fetch.1 respFirstOnly mkts31
    ⟨1, by decide, rfl⟩

/-- C8: `send_discord_message` against the scripted responses
[429 retry_after 1, 429 retry_after 1, 200] succeeds after sleeping 2.2 ≥ 2
seconds and posts the identical payload on all three attempts; on any 429 it
sleeps at least the provider-supplied `retry_after` and reposts the same
payload, looping on the remaining responses; any non-429 non-2xx response is
raised to the caller, never reported as success. -/
theorem send_discord_rate_limit_contract (payload : String) :
    (send_discord_message payload [⟨429, 1⟩, ⟨429, 1⟩, ⟨200, 0⟩] =
        (.delivered, 11 / 5, [payload, payload, payload]) ∧ (2 : ℚ) ≤ 11 / 5) ∧
    (∀ (r : DiscordResp) (rest : List DiscordResp), r.status = 429 →
      send_discord_message payload (r :: rest) =
        ((send_discord_message payload rest).1,
          r.retry_after + 1 / 10 + (send_discord_message payload rest).2.1,
          payload :: (send_discord_message payload rest).2.2)) ∧
    (∀ (r : DiscordResp) (rest : List DiscordResp),
      (∀ x ∈ r :: rest, 0 ≤ x.retry_after) → r.status = 429 →
      r.retry_after ≤ (send_discord_message payload (r :: rest)).2.1) ∧
    (∀ (r : DiscordResp) (rest : List DiscordResp), r.status ≠ 429 →
      ¬(200 ≤ r.status ∧ r.status < 300) →
      send_discord_message payload (r :: rest) =
        (.raised r.status, 0, [payload])) ∧
    (∀ (r : DiscordResp) (rest : List DiscordResp),
      200 ≤ r.status → r.status < 300 →
      send_discord_message payload (r :: rest) =
        (.delivered, 0, [payload])) := by
  refine ⟨⟨?_, by norm_num⟩, ?_, ?_, ?_, ?_⟩
  · simp [send_discord_message]
    norm_num
  · intro r rest h429
    simp only [send_discord_message, if_pos h429]
  · intro r rest hnn h429
    rw [(by simp only [send_discord_message, if_pos h429] :
      send_discord_message payload (r :: rest) =
        ((send_discord_message payload rest).1,
          r.retry_after + 1 / 10 + (send_discord_message payload rest).2.1,
          payload :: (send_discord_message payload rest).2.2))]
    have h2 : 0 ≤ (send_discord_message payload rest).2.1 :=
      send_wait_nonneg payload rest (fun x hx => hnn x (List.mem_cons_of_mem _ hx))
    dsimp only
    linarith
  · intro r rest h429 h2xx
    simp only [send_discord_message, if_neg h429, if_neg h2xx]
  · intro r rest h200 h300
    have h429 : r.status ≠ 429 := by omega
    have hcond : 200 ≤ r.status ∧ r.status < 300 := ⟨h200, h300⟩
    simp only [send_discord_message, if_neg h429, if_pos hcond]

/-- Witness for C8: the concrete rate-limit simulation of the spec. -/
theorem send_discord_rate_limit_contract_witness :
    send_discord_message "alert" [⟨429, 1⟩, ⟨429, 1⟩, ⟨200, 0⟩] =
      (.delivered, 11 / 5, ["alert", "alert", "alert"]) :=
  (send_discord_rate_limit_contract "alert").1.1

/-- C9: A tracker with no quote for its market, or with extracted price <= 0,
or stored reference price <= 0, is skipped: no send is attempted, the
`last_alert` table is untouched, and no pct is computed; moreover whenever a
pct is computed the reference price is strictly positive, so the division is
never by zero. -/
theorem guard_skips_tracker (quotes : String → Option ℚ) (ok : Bool)
    (now : Int) (store : Store) (t : Tracker) :
    ((quotes t.market = none ∨ (∃ p, quotes t.market = some p ∧ p ≤ 0) ∨
        t.avg_price ≤ 0) →
      procTracker quotes ok now store t = ⟨store, false, false, none, none⟩) ∧
    (∀ q : ℚ, (procTracker quotes ok now store t).pct = some q →
      0 < t.avg_price) := by
  constructor
  · intro h
    rcases h with h | ⟨p, hpq, hple⟩ | h
    · simp [procTracker, h]
    · simp [procTracker, hpq, hple]
    · cases hqm : quotes t.market with
      | none => simp [procTracker, hqm]
      | some p => simp [procTracker, hqm, h]
  · intro q hpct
    cases hqm : quotes t.market with
    | none => simp [procTracker, hqm] at hpct
    | some p =>
      by_cases hg : p ≤ 0 ∨ t.avg_price ≤ 0
      · simp [procTracker, hqm, hg] at hpct
      · push_neg at hg
        exact hg.2

/-- Witness for C9: a tracker whose market has no quote is skipped
untouched. -/
theorem guard_skips_tracker_witness :
    procTracker (fun _ => none) true 0 [] t0 = ⟨[], false, false, none, none⟩ :=
  (guard_skips_tracker (fun _ => none) true 0 [] t0).1 (Or.inl rfl)

/-- C10: `normalize_market` is canonicalizing: every successful result
matches the BASE-SYMBOL market form; a bare alphanumeric symbol of 2-10 code
points (any case, with surrounding whitespace) maps to the `KRW-` prefix
plus its uppercased form; and the function is idempotent on its results. -/
theorem normalize_market_spec :
    (∀ l r, normalize_market l = some r → matchMarketForm r = true) ∧
    (∀ pre core post, (∀ x ∈ pre, isSpaceCP x = true) →
      (∀ x ∈ post, isSpaceCP x = true) →
      (∀ x ∈ core, isAlnumCP x = true) →
      2 ≤ core.length → core.length ≤ 10 →
      normalize_market (pre ++ core ++ post) =
        some (krwDash ++ core.map toUpperCP)) ∧
    (∀ l r, normalize_market l = some r → normalize_market r = some r) :=
  ⟨fun _ _ h => normalize_some_mkt h,
    fun _ _ _ hpre hpost hcore h2 h10 => normalize_bare hpre hpost hcore h2 h10,
    fun _ _ h => mkt_fixed (normalize_some_mkt h)⟩

/-- Witness for C10 on the code points of "btc" (and its normalized form
"KRW-BTC" = [75, 82, 87, 45, 66, 84, 67]). -/
theorem normalize_market_spec_witness :
    normalize_market ([32] ++ [98, 116, 99] ++ [32]) =
      some (krwDash ++ [98, 116, 99].map toUpperCP) ∧
    matchMarketForm [75, 82, 87, 45, 66, 84, 67] = true ∧
    normalize_market [75, 82, 87, 45, 66, 84, 67] =
      some [75, 82, 87, 45, 66, 84, 67] :=
  ⟨normalize_market_spec.2.1 [32] [98, 116, 99] [32] (by decide) (by decide)
      (by decide) (by decide) (by decide),
    normalize_market_spec.1 [98, 116, 99] [75, 82, 87, 45, 66, 84, 67] rfl,
    normalize_market_spec.2.2 [98, 116, 99] [75, 82, 87, 45, 66, 84, 67] rfl⟩

end Notix
